import Mathlib

/-!
Verification of the multi-tenant wiki (src/code.py) against its design
specification.  The Python source is shallowly embedded: the filesystem is an
explicit state (a set of directories plus a path → content association list),
and each relevant Python function becomes a Lean function over that state.
String primitives used by the source (`os.path.join`, `os.path.splitext`,
`str.strip`, `str.lower`, `str.rsplit`) are embedded as structural functions
over the character list of a `String`, so that every definition evaluates by
kernel reduction.
-/

namespace Wiki

/-! ## String helpers (embedding Python string primitives) -/

/-- `pre.data.isPrefixOf s.data`: embeds Python `s.startswith(pre)`. -/
def startsWithL (s pre : String) : Bool :=
  pre.data.isPrefixOf s.data

/-- `suf.data.isSuffixOf s.data`: embeds Python `s.endswith(suf)`. -/
def endsWithL (s suf : String) : Bool :=
  suf.data.isSuffixOf s.data

/-- Embeds Python `c in s` for a single character `c`. -/
def containsL (s : String) (c : Char) : Bool :=
  s.data.contains c

/-- ASCII whitespace stripped by Python `str.strip()` (the source only ever
strips ASCII input). -/
def isPySpace (c : Char) : Bool :=
  c = ' ' || c = '\t' || c = '\n' || c = '\x0b' || c = '\x0c' || c = '\r'

/-- Embeds Python `s.strip()`: drop leading and trailing whitespace. -/
def pyStrip (s : String) : String :=
  String.mk (((s.data.dropWhile isPySpace).reverse.dropWhile isPySpace).reverse)

/-- Universal-newline translation performed by a Python text-mode read
(`open(p, 'r', encoding='utf-8').read()`): every `"\r\n"` pair and every lone
`'\r'` becomes `'\n'`.  (On POSIX a text-mode write stores `'\n'` verbatim, so
only the read side translates.) -/
def univNewlines : List Char → List Char
  | [] => []
  | [c] => if c = '\r' then ['\n'] else [c]
  | c1 :: c2 :: rest =>
    if c1 = '\r' then
      if c2 = '\n' then '\n' :: univNewlines rest
      else '\n' :: univNewlines (c2 :: rest)
    else c1 :: univNewlines (c2 :: rest)

/-- The string produced by reading a stored file in Python text mode. -/
def pyReadText (s : String) : String :=
  String.mk (univNewlines s.data)

/-- ASCII lower-casing of one character; embeds Python `str.lower` on the
ASCII strings the source deals with. -/
def charLower (c : Char) : Char :=
  if 'A' ≤ c ∧ c ≤ 'Z' then Char.ofNat (c.toNat + 32) else c

/-- Embeds Python `s.lower()` (ASCII). -/
def strLower (s : String) : String :=
  String.mk (s.data.map charLower)

/-- Lexicographic (code-point) `≤` on character lists; embeds Python string
comparison. -/
def lexLeChars : List Char → List Char → Bool
  | [], _ => true
  | _ :: _, [] => false
  | a :: as, b :: bs =>
    if a < b then true
    else if b < a then false
    else lexLeChars as bs

/-- The case-insensitive order used by `sorted(..., key=str.lower)` in
`list_pages`. -/
def ciLe (a b : String) : Prop :=
  lexLeChars (strLower a).data (strLower b).data = true

instance : DecidableRel ciLe := fun a b => by
  unfold ciLe; infer_instance

/-- Embeds Python `s.rsplit('.', 1)[1]` for a string containing a dot: the
substring after the last dot. -/
def afterLastDot (s : String) : String :=
  String.mk ((s.data.reverse.takeWhile (fun c => c ≠ '.')).reverse)

/-- Embeds the root component of `os.path.splitext` on a bare filename: cut at
the last dot, except when every character before that dot is itself a dot (the
"leading dots are not an extension separator" rule). -/
def splitextRoot (f : String) : String :=
  let cs := f.data
  match cs.reverse.findIdx? (fun c => c = '.') with
  | none => f
  | some i =>
    let k := cs.length - 1 - i
    if (cs.take k).any (fun c => c ≠ '.') then String.mk (cs.take k) else f

/-- Embeds POSIX `os.path.join(a, b)` for one component: an absolute second
component discards the first; otherwise a single `/` separates them. -/
def posixJoin (a b : String) : String :=
  if startsWithL b "/" then b
  else if a = "" || endsWithL a "/" then a ++ b
  else a ++ "/" ++ b

/-! ## Filesystem state -/

/-- The filesystem visible to the program: the set of existing directories and
the regular files as a path → content association list (later writes shadow
earlier entries; `fsWrite` keeps keys unique). -/
structure FS where
  dirs : List String
  files : List (String × String)
deriving DecidableEq

/-- The raw stored content of a file, if it exists.  Reading through Python's
text mode additionally applies `univNewlines`; see `load_page`. -/
def fsLookup (fs : FS) (p : String) : Option String :=
  (fs.files.find? (fun kv => kv.1 == p)).map Prod.snd

/-- Embeds `os.path.exists(p)` for a regular file. -/
def fsExists (fs : FS) (p : String) : Bool :=
  (fs.files.find? (fun kv => kv.1 == p)).isSome

/-- Write (create or fully overwrite) a file: embeds `open(p,'w').write(c)`. -/
def fsWrite (fs : FS) (p c : String) : FS :=
  { fs with files := (p, c) :: fs.files.filter (fun kv => kv.1 != p) }

/-- Remove a file: embeds `os.remove(p)`. -/
def fsRemove (fs : FS) (p : String) : FS :=
  { fs with files := fs.files.filter (fun kv => kv.1 != p) }

/-- Embeds `os.path.isdir(d)` / `os.path.exists(d)` for a directory. -/
def dirExists (fs : FS) (d : String) : Bool :=
  fs.dirs.contains d

/-- Embeds `os.makedirs(d)` (no-op when present, as guarded in the source). -/
def mkdir (fs : FS) (d : String) : FS :=
  if fs.dirs.contains d then fs else { fs with dirs := d :: fs.dirs }

/-- Embeds `shutil.rmtree(d)`: removes the directory, every directory below
it, and every file below it. -/
def rmtree (fs : FS) (d : String) : FS :=
  { dirs := fs.dirs.filter (fun x => x != d && !(startsWithL x (d ++ "/"))),
    files := fs.files.filter (fun kv => !(startsWithL kv.1 (d ++ "/"))) }

/-- Embeds `os.listdir(d)` restricted to the regular files directly inside
`d` (the source only ever filters the listing down to `.html` files, so
sub-directories are irrelevant).  The enumeration order of a real directory
listing is unspecified; the model fixes it as the file-list order. -/
def listdir (fs : FS) (d : String) : List String :=
  fs.files.filterMap (fun kv =>
    if startsWithL kv.1 (d ++ "/") then
      let rest := String.mk (kv.1.data.drop (d ++ "/").data.length)
      if containsL rest '/' then none else some rest
    else none)

/-- Well-formedness of a filesystem state: a file can only live below a
directory that exists.  True of any state reachable from a real filesystem. -/
def FS.Closed (fs : FS) : Prop :=
  ∀ kv ∈ fs.files, ∀ d : String,
    startsWithL kv.1 (d ++ "/") = true → fs.dirs.contains d = true

/-! ## Constants of the source -/

def BASE_DATA_DIR : String := "wiki_pages"

def IMG_DIR : String := "wiki_images"

def SUPER_USER : String := "Postman"

def ALLOWED_IMAGE_EXTENSIONS : List String := ["png", "jpg", "jpeg", "gif"]

/-! ## Space store (src/code.py lines 44-105) -/

/-- `os.path.join(BASE_DATA_DIR, username)`: the directory of one space. -/
def user_dir (username : String) : String :=
  posixJoin BASE_DATA_DIR username

/-- The path `save_page`/`load_page`/`delete_page` build for a page:
`os.path.join(user_dir, f"{page_name}.html")`. -/
def page_path (username page_name : String) : String :=
  posixJoin (user_dir username) (page_name ++ ".html")

/-- `ensure_user_space`: create the space directory if missing. -/
def ensure_user_space (fs : FS) (username : String) : FS :=
  mkdir fs (user_dir username)

/-- `list_pages`: the `.html` files of the space directory, extension
stripped, sorted with `key=str.lower`. -/
def list_pages (fs : FS) (user : String) : List String :=
  let files := (listdir fs (user_dir user)).filter (fun f => endsWithL f ".html")
  List.insertionSort ciLe (files.map splitextRoot)

/-- `load_page`: ensure the space directory, then read the page file if it
exists (`None` otherwise).  The source reads with
`open(path, 'r', encoding='utf-8')` — text mode — so the returned string is
the stored content after universal-newline translation.  Returns the updated
state and the result. -/
def load_page (fs : FS) (username page_name : String) : FS × Option String :=
  let fs := ensure_user_space fs username
  (fs, (fsLookup fs (page_path username page_name)).map pyReadText)

/-- `save_page`: ensure the space directory, then fully overwrite the page
file with `content`. -/
def save_page (fs : FS) (username page_name content : String) : FS :=
  let fs := ensure_user_space fs username
  fsWrite fs (page_path username page_name) content

/-- `delete_page`: remove the page file if present, reporting whether it
existed. -/
def delete_page (fs : FS) (username page_name : String) : FS × Bool :=
  let fs := ensure_user_space fs username
  let p := page_path username page_name
  if fsExists fs p then (fsRemove fs p, true) else (fs, false)

/-! ## Authorization policy (src/code.py lines 66-70 and 946-953)

The source defines `user_can_edit` twice at module level; the second
definition (the `@app.template_global()` one, lines 946-953) shadows the
first, so it is the function every handler actually calls.  Python's
`if not username` is falsy for both `None` and the empty string. -/

def user_can_edit (username : Option String) (page_user : String) : Bool :=
  match username with
  | none => false
  | some u =>
    if u = "" then false
    else if u = SUPER_USER then true
    else u == page_user

/-- `allowed_image` (src/code.py lines 72-73):
`'.' in filename and filename.rsplit('.',1)[1].lower() in ALLOWED_IMAGE_EXTENSIONS`. -/
def allowed_image (filename : String) : Bool :=
  containsL filename '.' &&
    ALLOWED_IMAGE_EXTENSIONS.contains (strLower (afterLastDot filename))

/-! ## Space resolution (the block repeated in `index`, `view_page`,
`edit_page`, `new_page`, `delete_page_route`) -/

/-- Resolve the effective current space from the session user, the optional
`space` query parameter, and the registry.  `request.args.get('space')` is
`None` when absent, and `None not in [SUPER_USER] + users_list` always holds,
so an absent parameter falls back to the super-user's space. -/
def resolve_space (current_user space : Option String) (users : List String) :
    String :=
  if current_user = some SUPER_USER then
    match space with
    | some s => if s = SUPER_USER ∨ s ∈ users then s else SUPER_USER
    | none => SUPER_USER
  else
    match current_user with
    | none => SUPER_USER
    | some u => if u = "" then SUPER_USER else u

/-! ## User registry (handler `manage_users`, src/code.py lines 863-900)

The handlers mutate a global registry and the filesystem in a fixed statement
order; the model returns the new state together with the ordered list of
externally visible side effects, so that effect ordering is provable. -/

/-- One externally visible side effect of a registry mutation. -/
inductive Event where
  | rmtreeSpace (dir : String)
  | persistUsers (users : List String)
  | ensureSpace (dir : String)
deriving DecidableEq

/-- Combined program state: the in-memory registry plus the filesystem. -/
structure St where
  users_list : List String
  fs : FS
deriving DecidableEq

/-- The `action == 'add'` branch of `manage_users`: the submitted name is
stripped, then checked (empty, super-user, duplicate, in that order); on
success it is appended, the registry persisted, and the space ensured.
Returns the new state, the ordered effects, and the failure message if any. -/
def add_user (st : St) (raw : String) : St × List Event × Option String :=
  let username := pyStrip raw
  if username = "" then (st, [], some "Enter a username to add.")
  else if username = SUPER_USER then (st, [], some "Cannot add super user.")
  else if st.users_list.contains username then
    (st, [], some "User already exists.")
  else
    let users := st.users_list ++ [username]
    ({ users_list := users, fs := ensure_user_space st.fs username },
     [Event.persistUsers users, Event.ensureSpace (user_dir username)],
     none)

/-- The `action == 'remove'` branch of `manage_users`: if the stripped name is
registered, the space directory is deleted recursively (when it exists), then
the name is removed from the registry, then the registry is persisted;
otherwise nothing changes and a not-found message is produced. -/
def remove_user (st : St) (raw : String) : St × List Event × Option String :=
  let username := pyStrip raw
  if st.users_list.contains username then
    let dir := user_dir username
    let (fs, ev) :=
      if dirExists st.fs dir then (rmtree st.fs dir, [Event.rmtreeSpace dir])
      else (st.fs, ([] : List Event))
    let users := st.users_list.erase username
    ({ users_list := users, fs := fs },
     ev ++ [Event.persistUsers users],
     none)
  else
    (st, [], some ("User \"" ++ username ++ "\" not found."))

/-! ## Page handlers -/

/-- The POST branch of `new_page` (src/code.py lines 788-797), after space
resolution and the authorization gate: the submitted name is stripped, then
rejected when empty or containing a space, `/` or `\`; rejected when already a
page of the space; otherwise created with the placeholder content.  (The
`page_name in list_pages(space)` check runs `list_pages`, whose
`ensure_user_space` call may create the space directory.) -/
def new_page_post (fs : FS) (space raw : String) : FS × Option String :=
  let page_name := pyStrip raw
  if page_name = "" ||
      page_name.data.any (fun c => c = ' ' || c = '/' || c = '\\') then
    (fs, some "Page name cannot be empty or contain spaces or slashes.")
  else
    let fs := ensure_user_space fs space
    if (list_pages fs space).contains page_name then
      (fs, some "Page already exists. Choose a different name.")
    else
      (save_page fs space page_name "<p>Your content here</p>", none)

/-- The image branch of the POST part of `edit_page` (src/code.py lines
748-755).  `img` is the optional uploaded file as (filename, bytes);
`sanitize` stands for werkzeug's `secure_filename` (external library code,
kept abstract).  Returns the new state and the `messages` string. -/
def handle_image (fs : FS) (sanitize : String → String)
    (img : Option (String × String)) : FS × String :=
  match img with
  | none => (fs, "")
  | some (fname, bytes) =>
    if fname = "" then (fs, "")
    else if allowed_image fname then
      let filename := sanitize fname
      (fsWrite fs (posixJoin IMG_DIR filename) bytes,
       "Image \"" ++ filename ++ "\" uploaded successfully. Add it in content as &lt;img src=\"/images/" ++ filename ++ "\"&gt;.")
    else
      (fs, "File type not allowed for image upload.")

/-- The POST branch of `edit_page` (src/code.py lines 745-758), after space
resolution and the authorization gate: the page is saved with the submitted
content first, and only then is the attached image considered. -/
def edit_page_post (fs : FS) (space page_name content : String)
    (sanitize : String → String) (img : Option (String × String)) :
    FS × String :=
  let fs := save_page fs space page_name content
  handle_image fs sanitize img

/-! ## Basic lemmas about the filesystem model -/

theorem files_mkdir (fs : FS) (d : String) : (mkdir fs d).files = fs.files := by
  unfold mkdir
  split <;> rfl

theorem dirs_fsWrite (fs : FS) (p c : String) :
    (fsWrite fs p c).dirs = fs.dirs := rfl

theorem fsLookup_mkdir (fs : FS) (d p : String) :
    fsLookup (mkdir fs d) p = fsLookup fs p := by
  unfold fsLookup
  rw [files_mkdir]

theorem fsLookup_fsWrite_self (fs : FS) (p c : String) :
    fsLookup (fsWrite fs p c) p = some c := by
  unfold fsLookup fsWrite
  rw [List.find?_cons_of_pos]
  · rfl
  · simp

theorem dirExists_mkdir_self (fs : FS) (d : String) :
    dirExists (mkdir fs d) d = true := by
  unfold dirExists mkdir
  split
  · assumption
  · simp [List.contains_cons]

theorem listdir_mkdir (fs : FS) (d d' : String) :
    listdir (mkdir fs d) d' = listdir fs d' := by
  unfold listdir
  rw [files_mkdir]

theorem list_pages_mkdir (fs : FS) (d : String) (u : String) :
    list_pages (mkdir fs d) u = list_pages fs u := by
  unfold list_pages
  rw [listdir_mkdir]

/-- Universal-newline translation is the identity on carriage-return-free
text. -/
theorem univNewlines_of_no_cr : ∀ l : List Char, '\r' ∉ l → univNewlines l = l
  | [], _ => rfl
  | [c], h => by
    have hc : c ≠ '\r' := fun e => h (by rw [e]; exact List.mem_cons_self _ _)
    simp [univNewlines, hc]
  | c1 :: c2 :: rest, h => by
    have h1 : c1 ≠ '\r' := fun e => h (by rw [e]; exact List.mem_cons_self _ _)
    have h2 : '\r' ∉ c2 :: rest := fun hm => h (List.mem_cons_of_mem _ hm)
    simp only [univNewlines, if_neg h1, List.cons.injEq, true_and]
    exact univNewlines_of_no_cr (c2 :: rest) h2

theorem pyReadText_of_no_cr (s : String) (h : '\r' ∉ s.data) :
    pyReadText s = s := by
  unfold pyReadText
  rw [univNewlines_of_no_cr s.data h]

/-- The page just saved reads back as the saved content after the text-mode
newline translation; shared by the round-trip claim and the edit-handler
claim. -/
theorem load_after_save (fs : FS) (space name content : String) :
    (load_page (save_page fs space name content) space name).2 =
      some (pyReadText content) := by
  show (fsLookup
      (mkdir (fsWrite (mkdir fs (user_dir space)) (page_path space name) content)
        (user_dir space))
      (page_path space name)).map pyReadText = some (pyReadText content)
  rw [fsLookup_mkdir, fsLookup_fsWrite_self]
  rfl

/-! ## C1: the authorization decision -/

/-- C1: `user_can_edit` returns false for an anonymous actor, true for the
super-user `'Postman'` whatever the target, and otherwise compares the actor
with the target space's owner.  (Python's `if not username` also treats the
empty string as "no identity"; owner identities are never empty.) -/
theorem C1_user_can_edit_spec (target : String) :
    user_can_edit none target = false ∧
    user_can_edit (some SUPER_USER) target = true ∧
    (∀ u : String, u ≠ SUPER_USER → u ≠ "" →
      user_can_edit (some u) target = (u == target)) := by
  refine ⟨rfl, ?_, ?_⟩
  · simp [user_can_edit, SUPER_USER]
  · intro u h1 h2
    simp [user_can_edit, h1, h2]

theorem C1_user_can_edit_witness :
    user_can_edit (some "alice") "bob" = ("alice" == "bob") :=
  (C1_user_can_edit_spec "bob").2.2 "alice" (by decide) (by decide)

/-! ## C2: space resolution -/

/-- C2: the current space resolves to the requested space for the super-user
when it names the super-user or a registered user (falling back to the
super-user's own space otherwise, also when absent); to the actor's own space
for a logged-in regular user, ignoring the parameter; and to the super-user's
space for an anonymous actor, regardless of the parameter. -/
theorem C2_resolve_space_spec (users : List String) :
    (∀ s : String, (s = SUPER_USER ∨ s ∈ users) →
      resolve_space (some SUPER_USER) (some s) users = s) ∧
    (∀ s : String, ¬(s = SUPER_USER ∨ s ∈ users) →
      resolve_space (some SUPER_USER) (some s) users = SUPER_USER) ∧
    resolve_space (some SUPER_USER) none users = SUPER_USER ∧
    (∀ (u : String) (sp : Option String), u ≠ SUPER_USER → u ≠ "" →
      resolve_space (some u) sp users = u) ∧
    (∀ sp : Option String, resolve_space none sp users = SUPER_USER) := by
  refine ⟨?_, ?_, ?_, ?_, ?_⟩
  · intro s hs
    simp [resolve_space, hs]
  · intro s hs
    simp [resolve_space, hs]
  · simp [resolve_space]
  · intro u sp h1 h2
    simp [resolve_space, h1, h2]
  · intro sp
    simp [resolve_space]

theorem C2_resolve_space_witness :
    resolve_space (some "alice") (some "Postman") ["alice", "bob"] = "alice" :=
  (C2_resolve_space_spec ["alice", "bob"]).2.2.2.1 "alice" (some "Postman")
    (by decide) (by decide)

/-! ## C4: save/load round trip -/

/-- C4 counterexample: the round trip is not exact for every content, because
`load_page` reads in Python text mode, whose universal-newline translation
rewrites `"\r\n"` and lone `"\r"` to `"\n"`: saving `"a\r\nb"` and loading it
back yields `"a\nb"`. -/
theorem C4_roundtrip_counterexample :
    (load_page (save_page ⟨["wiki_pages"], []⟩ "Alice" "Foo" "a\r\nb")
      "Alice" "Foo").2 = some "a\nb" ∧
    "a\nb" ≠ "a\r\nb" := by
  decide

/-- C4 (amended): saving a page and loading it back returns the saved content
after universal-newline translation (`"\r\n"`/`"\r"` become `"\n"`); the round
trip is exact for every content free of carriage returns.  This holds in
particular when the file was absent, since `save_page` creates it — a full
overwrite — and `save_page` also creates the space directory. -/
theorem C4_save_load_roundtrip (fs : FS) (space name content : String) :
    (load_page (save_page fs space name content) space name).2 =
      some (pyReadText content) ∧
    ('\r' ∉ content.data →
      (load_page (save_page fs space name content) space name).2 =
        some content) ∧
    dirExists (save_page fs space name content) (user_dir space) = true := by
  refine ⟨load_after_save fs space name content, ?_, ?_⟩
  · intro hcr
    rw [load_after_save fs space name content, pyReadText_of_no_cr content hcr]
  · unfold save_page ensure_user_space
    show ((fsWrite (mkdir fs (user_dir space)) _ _).dirs.contains _) = true
    rw [dirs_fsWrite]
    exact dirExists_mkdir_self fs (user_dir space)

theorem C4_save_load_roundtrip_witness :
    (load_page (save_page ⟨["wiki_pages"], []⟩ "Alice" "Foo" "<p>hello</p>")
      "Alice" "Foo").2 = some "<p>hello</p>" :=
  (C4_save_load_roundtrip ⟨["wiki_pages"], []⟩ "Alice" "Foo"
    "<p>hello</p>").2.1 (by decide)

/-! ## C9: image upload extension gate -/

/-- C9: an upload whose lowercased extension is outside {png, jpg, jpeg, gif}
is rejected — `photo.exe` in particular — while the check is case-insensitive,
so `photo.PNG` passes; an accepted file is written into the shared image
directory under its sanitized name, overwriting any file already there. -/
theorem C9_image_upload_spec (fs : FS) (sanitize : String → String)
    (fname bytes : String) :
    allowed_image "photo.exe" = false ∧
    allowed_image "photo.PNG" = true ∧
    (fname ≠ "" → allowed_image fname = false →
      handle_image fs sanitize (some (fname, bytes)) =
        (fs, "File type not allowed for image upload.")) ∧
    (allowed_image fname = true →
      (handle_image fs sanitize (some (fname, bytes))).1 =
        fsWrite fs (posixJoin IMG_DIR (sanitize fname)) bytes ∧
      fsLookup (handle_image fs sanitize (some (fname, bytes))).1
        (posixJoin IMG_DIR (sanitize fname)) = some bytes) := by
  refine ⟨by decide, by decide, ?_, ?_⟩
  · intro h1 h2
    simp [handle_image, h1, h2]
  · intro h
    have h1 : fname ≠ "" := by
      intro e
      rw [e] at h
      exact absurd h (by decide)
    constructor
    · simp [handle_image, h1, h]
    · simp [handle_image, h1, h, fsLookup_fsWrite_self]

theorem C9_image_upload_witness :
    (handle_image ⟨["wiki_images"], [("wiki_images/photo.PNG", "old")]⟩ id
        (some ("photo.PNG", "new"))).1 =
      fsWrite ⟨["wiki_images"], [("wiki_images/photo.PNG", "old")]⟩
        (posixJoin IMG_DIR (id "photo.PNG")) "new" :=
  ((C9_image_upload_spec ⟨["wiki_images"], [("wiki_images/photo.PNG", "old")]⟩
    id "photo.PNG" "new").2.2.2 (by decide)).1

/-! ## C10: the edit handler saves the page before validating the image -/

/-- C10: in the POST branch of `edit_page` the page is saved with the
submitted content before the uploaded image is examined, so when the image is
rejected for a disallowed extension the result is exactly the saved state plus
the rejection message — the page content is persisted, reading back (through
the text-mode newline translation every load applies) as the saved content. -/
theorem C10_edit_save_precedes_image (fs : FS)
    (space page_name content : String) (sanitize : String → String)
    (fname bytes : String) (hne : fname ≠ "")
    (hbad : allowed_image fname = false) :
    edit_page_post fs space page_name content sanitize (some (fname, bytes)) =
      (save_page fs space page_name content,
        "File type not allowed for image upload.") ∧
    (load_page
        (edit_page_post fs space page_name content sanitize
          (some (fname, bytes))).1
        space page_name).2 = some (pyReadText content) := by
  have h : edit_page_post fs space page_name content sanitize
      (some (fname, bytes)) =
      (save_page fs space page_name content,
        "File type not allowed for image upload.") := by
    simp [edit_page_post, handle_image, hne, hbad]
  refine ⟨h, ?_⟩
  rw [h]
  exact load_after_save fs space page_name content

theorem C10_edit_save_precedes_image_witness :
    (load_page
        (edit_page_post ⟨["wiki_pages"], []⟩ "alice" "Foo" "<p>hi</p>" id
          (some ("virus.exe", "MZ"))).1
        "alice" "Foo").2 = some "<p>hi</p>" := by
  rw [(C10_edit_save_precedes_image ⟨["wiki_pages"], []⟩ "alice" "Foo"
    "<p>hi</p>" id "virus.exe" "MZ" (by decide) (by decide)).2]
  decide

/-! ## The case-insensitive order is total and transitive -/

theorem lexLeChars_total : ∀ as bs : List Char,
    lexLeChars as bs = true ∨ lexLeChars bs as = true
  | [], _ => Or.inl rfl
  | _ :: _, [] => Or.inr rfl
  | a :: as, b :: bs => by
    by_cases hab : a < b
    · left
      simp [lexLeChars, hab]
    · by_cases hba : b < a
      · right
        simp [lexLeChars, hba]
      · rcases lexLeChars_total as bs with h | h
        · left
          simp [lexLeChars, hab, hba, h]
        · right
          simp [lexLeChars, hab, hba, h]

theorem lexLeChars_trans : ∀ as bs cs : List Char,
    lexLeChars as bs = true → lexLeChars bs cs = true →
    lexLeChars as cs = true
  | [], _, _, _, _ => rfl
  | a :: as, [], cs, h, _ => by simp [lexLeChars] at h
  | _ :: _, _ :: _, [], _, h => by simp [lexLeChars] at h
  | a :: as, b :: bs, c :: cs, h1, h2 => by
    by_cases hab : a < b
    · by_cases hbc : b < c
      · simp [lexLeChars, lt_trans hab hbc]
      · by_cases hcb : c < b
        · simp [lexLeChars, hbc, hcb] at h2
        · have hbc' : b = c := le_antisymm (le_of_not_lt hcb) (le_of_not_lt hbc)
          simp [lexLeChars, hbc' ▸ hab]
    · by_cases hba : b < a
      · simp [lexLeChars, hab, hba] at h1
      · have hab' : a = b := le_antisymm (le_of_not_lt hba) (le_of_not_lt hab)
        subst hab'
        by_cases hac : a < c
        · simp [lexLeChars, hac]
        · by_cases hca : c < a
          · simp [lexLeChars, hca, lt_asymm hca] at h2
          · simp only [lexLeChars, if_neg hab, if_neg hac, if_neg hca] at h1 h2 ⊢
            exact lexLeChars_trans as bs cs h1 h2

/-! ## C8: page listing -/

/-- C8: `list_pages` returns the page names of the space (the `.html` files of
its directory, extension stripped), sorted case-insensitively; it is empty
when the space holds no pages; and on a space holding `Banana`, `apple`,
`Cherry` it returns `["apple", "Banana", "Cherry"]`. -/
theorem C8_list_pages_spec (fs : FS) (user : String) :
    (list_pages fs user).Sorted ciLe ∧
    List.Perm (list_pages fs user)
      (((listdir fs (user_dir user)).filter
        (fun f => endsWithL f ".html")).map splitextRoot) ∧
    ((listdir fs (user_dir user)).filter (fun f => endsWithL f ".html") = [] →
      list_pages fs user = []) ∧
    list_pages
      ⟨["wiki_pages", "wiki_pages/Postman"],
        [("wiki_pages/Postman/Banana.html", "b"),
         ("wiki_pages/Postman/apple.html", "a"),
         ("wiki_pages/Postman/Cherry.html", "c")]⟩ "Postman" =
      ["apple", "Banana", "Cherry"] := by
  haveI : IsTotal String ciLe := ⟨fun a b => lexLeChars_total _ _⟩
  haveI : IsTrans String ciLe := ⟨fun a b c => lexLeChars_trans _ _ _⟩
  refine ⟨List.sorted_insertionSort ciLe _, List.perm_insertionSort ciLe _,
    ?_, by decide⟩
  intro h
  simp [list_pages, h]

theorem C8_list_pages_witness :
    list_pages ⟨["wiki_pages"], []⟩ "nobody" = [] :=
  (C8_list_pages_spec ⟨["wiki_pages"], []⟩ "nobody").2.2.1 (by decide)

/-! ## Lemmas about recursive space deletion -/

theorem listdir_rmtree_self (fs : FS) (d : String) :
    listdir (rmtree fs d) d = [] := by
  unfold listdir rmtree
  rw [List.filterMap_eq_nil_iff]
  intro kv hkv
  simp only [List.mem_filter] at hkv
  have h : startsWithL kv.1 (d ++ "/") = false := by simpa using hkv.2
  simp [h]

theorem list_pages_eq_nil_of_listdir (fs : FS) (u : String)
    (h : listdir fs (user_dir u) = []) : list_pages fs u = [] := by
  simp [list_pages, h]

/-! ## C5: user removal -/

/-- C5: removing a registered user first deletes that user's whole space
directory recursively, then removes the user from the registry, then persists
the registry (the event list records that order); afterwards the registry no
longer contains the user and listing the user's space is empty.  Removing an
absent user produces the not-found message and changes nothing.  (`hwf` is the
filesystem fact that no files live below a directory that does not exist.) -/
theorem C5_remove_user_spec (st : St) (raw : String)
    (hnodup : st.users_list.Nodup)
    (hwf : dirExists st.fs (user_dir (pyStrip raw)) = false →
      listdir st.fs (user_dir (pyStrip raw)) = []) :
    (pyStrip raw ∈ st.users_list →
      (remove_user st raw).1.users_list =
        st.users_list.erase (pyStrip raw) ∧
      pyStrip raw ∉ (remove_user st raw).1.users_list ∧
      list_pages (remove_user st raw).1.fs (pyStrip raw) = [] ∧
      (remove_user st raw).2.1 =
        (if dirExists st.fs (user_dir (pyStrip raw)) = true then
          [Event.rmtreeSpace (user_dir (pyStrip raw))] else []) ++
        [Event.persistUsers (st.users_list.erase (pyStrip raw))] ∧
      (remove_user st raw).2.2 = none) ∧
    (pyStrip raw ∉ st.users_list →
      (remove_user st raw).1 = st ∧
      (remove_user st raw).2.1 = [] ∧
      (remove_user st raw).2.2 =
        some ("User \"" ++ pyStrip raw ++ "\" not found.")) := by
  constructor
  · intro hmem
    have hc : st.users_list.contains (pyStrip raw) = true :=
      List.elem_iff.mpr hmem
    by_cases hd : dirExists st.fs (user_dir (pyStrip raw)) = true
    · refine ⟨by simp [remove_user, hc, hd, hmem], ?_,
        ?_, by simp [remove_user, hc, hd, hmem], by simp [remove_user, hc, hd, hmem]⟩
      · have : (remove_user st raw).1.users_list =
            st.users_list.erase (pyStrip raw) := by simp [remove_user, hc, hd, hmem]
        rw [this]
        exact hnodup.not_mem_erase
      · have : (remove_user st raw).1.fs =
            rmtree st.fs (user_dir (pyStrip raw)) := by
          simp [remove_user, hc, hd, hmem]
        rw [this]
        exact list_pages_eq_nil_of_listdir _ _ (listdir_rmtree_self _ _)
    · have hd' : dirExists st.fs (user_dir (pyStrip raw)) = false := by
        simpa using hd
      refine ⟨by simp [remove_user, hc, hd', hmem], ?_,
        ?_, by simp [remove_user, hc, hd', hmem], by simp [remove_user, hc, hd', hmem]⟩
      · have : (remove_user st raw).1.users_list =
            st.users_list.erase (pyStrip raw) := by simp [remove_user, hc, hd', hmem]
        rw [this]
        exact hnodup.not_mem_erase
      · have : (remove_user st raw).1.fs = st.fs := by
          simp [remove_user, hc, hd', hmem]
        rw [this]
        exact list_pages_eq_nil_of_listdir _ _ (hwf hd')
  · intro hmem
    have hc : st.users_list.contains (pyStrip raw) = false := by
      simpa using mt List.elem_iff.mp hmem
    exact ⟨by simp [remove_user, hc, hmem], by simp [remove_user, hc, hmem],
      by simp [remove_user, hc, hmem]⟩

theorem C5_remove_user_witness :
    pyStrip "alice" ∉
      (remove_user
        ⟨["alice"], ⟨["wiki_pages", "wiki_pages/alice"],
          [("wiki_pages/alice/Foo.html", "x")]⟩⟩ "alice").1.users_list ∧
    list_pages
      (remove_user
        ⟨["alice"], ⟨["wiki_pages", "wiki_pages/alice"],
          [("wiki_pages/alice/Foo.html", "x")]⟩⟩ "alice").1.fs
      (pyStrip "alice") = [] := by
  have h := (C5_remove_user_spec
    ⟨["alice"], ⟨["wiki_pages", "wiki_pages/alice"],
      [("wiki_pages/alice/Foo.html", "x")]⟩⟩ "alice"
    (by decide) (by decide)).1 (by decide)
  exact ⟨h.2.1, h.2.2.1⟩

/-! ## C6: user creation -/

/-- C6: adding a name already in the registry fails with the duplicate
message, adding the super-user identity `'Postman'` fails with the reserved
message, and both failures leave the whole state unchanged; otherwise the
(stripped, non-empty) name is appended, the registry is persisted, and the new
user's space directory exists afterwards. -/
theorem C6_add_user_spec (st : St) (raw : String) :
    (pyStrip raw = SUPER_USER →
      add_user st raw = (st, [], some "Cannot add super user.")) ∧
    (pyStrip raw ≠ "" → pyStrip raw ≠ SUPER_USER →
      pyStrip raw ∈ st.users_list →
      add_user st raw = (st, [], some "User already exists.")) ∧
    (pyStrip raw ≠ "" → pyStrip raw ≠ SUPER_USER →
      pyStrip raw ∉ st.users_list →
      (add_user st raw).1.users_list = st.users_list ++ [pyStrip raw] ∧
      dirExists (add_user st raw).1.fs (user_dir (pyStrip raw)) = true ∧
      (add_user st raw).2.1 =
        [Event.persistUsers (st.users_list ++ [pyStrip raw]),
         Event.ensureSpace (user_dir (pyStrip raw))] ∧
      (add_user st raw).2.2 = none) := by
  refine ⟨?_, ?_, ?_⟩
  · intro h
    have h' : pyStrip raw ≠ "" := by
      rw [h]; decide
    simp [add_user, h, h', SUPER_USER]
  · intro h1 h2 h3
    have hc : st.users_list.contains (pyStrip raw) = true :=
      List.elem_iff.mpr h3
    simp [add_user, h1, h2, hc, h3]
  · intro h1 h2 h3
    have hc : st.users_list.contains (pyStrip raw) = false := by
      simpa using mt List.elem_iff.mp h3
    refine ⟨by simp [add_user, h1, h2, hc, h3], ?_,
      by simp [add_user, h1, h2, hc, h3], by simp [add_user, h1, h2, hc, h3]⟩
    have : (add_user st raw).1.fs = ensure_user_space st.fs (pyStrip raw) := by
      simp [add_user, h1, h2, hc, h3]
    rw [this]
    exact dirExists_mkdir_self _ _

theorem C6_add_user_witness :
    (add_user ⟨[], ⟨["wiki_pages"], []⟩⟩ "alice").1.users_list =
      ["alice"] ∧
    (add_user ⟨["bob"], ⟨["wiki_pages"], []⟩⟩ "Postman").2.2 =
      some "Cannot add super user." := by
  constructor
  · rw [((C6_add_user_spec ⟨[], ⟨["wiki_pages"], []⟩⟩ "alice").2.2
      (by decide) (by decide) (by decide)).1]
    decide
  · rw [(C6_add_user_spec ⟨["bob"], ⟨["wiki_pages"], []⟩⟩ "Postman").1
      (by decide)]

/-! ## C7: page creation -/

/-- C7 counterexample: the claim says a submitted page_name containing
whitespace is rejected, but the handler only tests for the literal space
character, so a name with an embedded tab — whitespace by Python's own
`str.strip` classification — is accepted and the page is created. -/
theorem C7_new_page_counterexample :
    isPySpace '\t' = true ∧
    containsL "a\tb" '\t' = true ∧
    (new_page_post ⟨["wiki_pages", "wiki_pages/Postman"], []⟩ "Postman"
      "a\tb").2 = none ∧
    fsLookup
      (new_page_post ⟨["wiki_pages", "wiki_pages/Postman"], []⟩ "Postman"
        "a\tb").1
      (page_path "Postman" "a\tb") = some "<p>Your content here</p>" := by
  decide

/-- C7 (amended): creating a page fails with the invalid-name message when the
stripped submitted name is empty or contains `/`, `\`, or the literal space
character `' '` (other whitespace such as tab is accepted), fails with the
already-exists message when the name is already a page of the space, and
otherwise writes the page with the placeholder content; no page file is
written in either failure case. -/
theorem C7_new_page_spec (fs : FS) (space raw : String) :
    ((pyStrip raw = "" ∨
        (pyStrip raw).data.any (fun c => c = ' ' || c = '/' || c = '\\') = true) →
      new_page_post fs space raw =
        (fs, some "Page name cannot be empty or contain spaces or slashes.")) ∧
    (pyStrip raw ≠ "" →
      (pyStrip raw).data.any (fun c => c = ' ' || c = '/' || c = '\\') = false →
      pyStrip raw ∈ list_pages fs space →
      new_page_post fs space raw =
        (ensure_user_space fs space,
          some "Page already exists. Choose a different name.") ∧
      (new_page_post fs space raw).1.files = fs.files) ∧
    (pyStrip raw ≠ "" →
      (pyStrip raw).data.any (fun c => c = ' ' || c = '/' || c = '\\') = false →
      pyStrip raw ∉ list_pages fs space →
      (load_page (new_page_post fs space raw).1 space (pyStrip raw)).2 =
        some "<p>Your content here</p>" ∧
      (new_page_post fs space raw).2 = none) := by
  refine ⟨?_, ?_, ?_⟩
  · rintro (he | hany)
    · simp [new_page_post, he]
    · simp [new_page_post, hany]
  · intro h1 h2 h3
    have h3' : pyStrip raw ∈ list_pages (ensure_user_space fs space) space := by
      show pyStrip raw ∈ list_pages (mkdir fs (user_dir space)) space
      rw [list_pages_mkdir]
      exact h3
    constructor
    · simp [new_page_post, h1, h2, h3']
    · have : (new_page_post fs space raw).1 = ensure_user_space fs space := by
        simp [new_page_post, h1, h2, h3']
      rw [this]
      exact files_mkdir fs (user_dir space)
  · intro h1 h2 h3
    have h3' : pyStrip raw ∉ list_pages (ensure_user_space fs space) space := by
      show pyStrip raw ∉ list_pages (mkdir fs (user_dir space)) space
      rw [list_pages_mkdir]
      exact h3
    have hst : (new_page_post fs space raw).1 =
        save_page (ensure_user_space fs space) space (pyStrip raw)
          "<p>Your content here</p>" := by
      simp [new_page_post, h1, h2, h3']
    refine ⟨?_, by simp [new_page_post, h1, h2, h3']⟩
    rw [hst, load_after_save]
    decide

theorem C7_new_page_witness :
    (load_page (new_page_post ⟨["wiki_pages"], []⟩ "Postman" "Foo").1
      "Postman" (pyStrip "Foo")).2 = some "<p>Your content here</p>" :=
  ((C7_new_page_spec ⟨["wiki_pages"], []⟩ "Postman" "Foo").2.2
    (by decide) (by decide) (by decide)).1

/-! ## C3: path confinement -/

theorem slash_isPrefixOf_cons {c : Char} (t : List Char) (h : c ≠ '/') :
    List.isPrefixOf ['/'] (c :: t) = false := by
  simp [List.isPrefixOf, beq_eq_false_iff_ne]
  exact fun e => h e.symm

theorem startsWithL_slash_eq_false (s : String) (h : '/' ∉ s.data) :
    startsWithL s "/" = false := by
  unfold startsWithL
  show List.isPrefixOf ['/'] s.data = false
  cases hs : s.data with
  | nil => rfl
  | cons c t =>
    refine slash_isPrefixOf_cons t fun e => h ?_
    rw [hs, e]
    exact List.mem_cons_self _ _

theorem endsWithL_append_slash_eq_false (pre s : String) (hne : s ≠ "")
    (h : '/' ∉ s.data) : endsWithL (pre ++ s) "/" = false := by
  unfold endsWithL
  show List.isPrefixOf (['/'].reverse) ((pre ++ s).data.reverse) = false
  rw [String.data_append, List.reverse_append]
  have hsd : s.data ≠ [] := by
    intro e
    exact hne (congrArg String.mk e)
  cases hs : s.data.reverse with
  | nil => exact absurd (List.reverse_eq_nil_iff.mp hs) hsd
  | cons c t =>
    show List.isPrefixOf ['/'] (c :: (t ++ pre.data.reverse)) = false
    refine slash_isPrefixOf_cons _ fun e => h ?_
    have : c ∈ s.data.reverse := by
      rw [hs]
      exact List.mem_cons_self _ _
    rw [← e]
    exact List.mem_reverse.mp this

theorem posixJoin_eq (a b : String) (hb : startsWithL b "/" = false)
    (ha1 : a ≠ "") (ha2 : endsWithL a "/" = false) :
    posixJoin a b = a ++ "/" ++ b := by
  simp [posixJoin, hb, ha1, ha2]

/-- C3 counterexample: no handler or storage function rejects or sanitizes a
page name containing a path separator.  A page name that is an absolute path
makes `os.path.join` discard the space directory entirely: saving page
`/etc/passwd` in Alice's space writes the file `/etc/passwd.html`, outside the
data root `wiki_pages` and outside `wiki_pages/Alice`. -/
theorem C3_counterexample :
    (save_page ⟨["wiki_pages", "wiki_pages/Alice"], []⟩ "Alice" "/etc/passwd"
      "pwned").files = [("/etc/passwd.html", "pwned")] ∧
    startsWithL "/etc/passwd.html" ("wiki_pages" ++ "/") = false ∧
    startsWithL "/etc/passwd.html" ("wiki_pages/Alice" ++ "/") = false := by
  decide

/-- C3 (amended): the handlers perform no rejection or sanitization of
`page_name`; but for every page name free of `/` — and URL routing can only
deliver such names to the view/edit/delete handlers — the file acted on is
exactly `wiki_pages/<space>/<page_name>.html`, a direct child of the resolved
space's directory (its final component contains no separator), so those
requests stay inside the space.  Page names containing `/` reach storage
verbatim and escape (see the counterexample). -/
theorem C3_page_path_confinement (space name : String) (hs0 : space ≠ "")
    (hs : '/' ∉ space.data) (hn : '/' ∉ name.data) :
    page_path space name =
      BASE_DATA_DIR ++ "/" ++ space ++ "/" ++ (name ++ ".html") ∧
    '/' ∉ (name ++ ".html").data := by
  have hhtml : '/' ∉ (name ++ ".html").data := by
    rw [String.data_append]
    intro hmem
    rcases List.mem_append.mp hmem with h | h
    · exact hn h
    · exact absurd h (by decide)
  refine ⟨?_, hhtml⟩
  unfold page_path user_dir
  have h1 : posixJoin BASE_DATA_DIR space = BASE_DATA_DIR ++ "/" ++ space :=
    posixJoin_eq _ _ (startsWithL_slash_eq_false space hs) (by decide)
      (by decide)
  rw [h1]
  refine posixJoin_eq _ _ (startsWithL_slash_eq_false _ hhtml) ?_ ?_
  · intro e
    have := congrArg String.data e
    simp [String.data_append] at this
  · exact endsWithL_append_slash_eq_false (BASE_DATA_DIR ++ "/") space hs0 hs

theorem C3_page_path_confinement_witness :
    page_path "Alice" "Foo" =
      BASE_DATA_DIR ++ "/" ++ "Alice" ++ "/" ++ ("Foo" ++ ".html") :=
  (C3_page_path_confinement "Alice" "Foo" (by decide) (by decide)
    (by decide)).1

end Wiki
